import Mathlib

/-!
A shallow embedding of the `waitmap` crate (an async concurrent hashmap built
on dashmap) and proofs about its operations.

Modelling conventions:

* The dashmap `DashMap<K, WaitEntry<V>, S>` is modelled as a total function
  `K → Option (WaitEntry V W)`; absence of a slot is `none`.  Sharding and
  locking are timing concerns invisible to the sequential state semantics.
* `std::task::Waker` is an abstract type parameter `W`; "waking" a set of
  wakers is modelled by returning the list of wakers that get signalled.
* `usize` is modelled as `Nat`; the sentinel `usize::MAX` is `USIZE_MAX`.
* A reachable `panic!()` is modelled as an `Option`-valued function
  returning `none` on the panicking branch.
-/

/-- `usize::MAX`, used by the crate as the "not registered" sentinel index. -/
def USIZE_MAX : Nat := 2 ^ 64 - 1

/-- `waker_set::WakerSet`: a growable sequence of optional wakers
(`SmallVec<[Option<Waker>; 1]>` in the source). -/
structure WakerSet (W : Type) where
  wakers : List (Option W)
deriving DecidableEq, Repr

namespace WakerSet

/-- `WakerSet::new`. -/
def new : WakerSet W := ⟨[]⟩

/-- `WakerSet::len`: the number of stored (live or tombstoned) positions. -/
def len (s : WakerSet W) : Nat := s.wakers.length

/-- `WakerSet::replace(waker, &mut idx)`: if `*idx >= len` append `Some(waker)`
and write the new position back into `idx`; otherwise overwrite position
`idx` in place.  The returned pair is (new set, new value of `idx`). -/
def replace (s : WakerSet W) (waker : W) (idx : Nat) : WakerSet W × Nat :=
  if idx ≥ s.len then
    (⟨s.wakers ++ [some waker]⟩, s.len)
  else
    (⟨s.wakers.set idx (some waker)⟩, idx)

/-- `WakerSet::remove(idx)`: `self.wakers[idx] = None`.  Rust indexing panics
when `idx` is out of bounds, hence the `Option` result. -/
def remove (s : WakerSet W) (idx : Nat) : Option (WakerSet W) :=
  if idx < s.wakers.length then some ⟨s.wakers.set idx none⟩ else none

/-- `WakerSet::wake(self)`: consume the sequence and signal every `Some`
waker; the result is the list of wakers signalled, in order. -/
def wake (s : WakerSet W) : List W := s.wakers.filterMap id

end WakerSet

/-- `WaitEntry<V>`: the per-key slot, either a placeholder holding the wakers
of pending waiters or a filled value. -/
inductive WaitEntry (V : Type) (W : Type) where
  | Waiting (wakers : WakerSet W)
  | Filled (value : V)
deriving DecidableEq, Repr

/-- The dashmap underlying a `WaitMap`, as a per-key state function. -/
def WMap (K V W : Type) := K → Option (WaitEntry V W)

/-- The empty map. -/
def WMap.empty : WMap K V W := fun _ => none

/-- Point update of the underlying map (what a dashmap entry/insert/remove
does to the slot of one key). -/
def WMap.upd [DecidableEq K] (m : WMap K V W) (key : K)
    (e : Option (WaitEntry V W)) : WMap K V W :=
  fun k => if k = key then e else m k

@[simp] theorem WMap.upd_same [DecidableEq K] (m : WMap K V W) (key : K)
    (e : Option (WaitEntry V W)) : m.upd key e key = e := by
  simp [WMap.upd]

@[simp] theorem WMap.upd_other [DecidableEq K] (m : WMap K V W) (key k : K)
    (e : Option (WaitEntry V W)) (h : k ≠ key) : m.upd key e k = m k := by
  simp [WMap.upd, h]

/-- `waitmap::Ref` (and the borrow part of `RefMut`): a guard wrapping the
slot stored under a key — note the source wraps whatever dashmap guard it got,
whether or not the slot is `Filled`. -/
structure WRef (K V W : Type) where
  key : K
  entry : WaitEntry V W
deriving DecidableEq, Repr

/-- `Ref::value` / `RefMut::value_mut`: returns the value when the wrapped
slot is `Filled`, and hits `panic!()` (modelled as `none`) otherwise. -/
def WRef.value (r : WRef K V W) : Option V :=
  match r.entry with
  | .Filled v => some v
  | _ => none

namespace WaitMap

variable {K V W : Type} [DecidableEq K]

/-- `WaitMap::insert(key, value)`: via the dashmap entry API, replace the slot
with `Filled value`.  Returns (new map, old value if the slot was `Filled`,
wakers signalled — nonempty only when the slot was `Waiting`). -/
def insert (m : WMap K V W) (key : K) (value : V) :
    WMap K V W × Option V × List W :=
  match m key with
  | some (.Waiting wakers) =>
      (m.upd key (some (.Filled value)), none, wakers.wake)
  | some (.Filled old) =>
      (m.upd key (some (.Filled value)), some old, [])
  | none =>
      (m.upd key (some (.Filled value)), none, [])

/-- `WaitMap::get(key)`: `Some(Ref { inner: self.map.get(key)? })` — the
source wraps the dashmap guard whenever the key is present, with no check
that the slot is `Filled`. -/
def get (m : WMap K V W) (key : K) : Option (WRef K V W) :=
  (m key).map fun e => ⟨key, e⟩

/-- `WaitMap::get_mut(key)`: identical slot semantics to `get`. -/
def get_mut (m : WMap K V W) (key : K) : Option (WRef K V W) :=
  (m key).map fun e => ⟨key, e⟩

/-- `WaitMap::cancel(key)`: `remove_if` the slot when it is `Waiting`, then
wake the removed waker set.  Returns (new map, whether a Waiting slot was
removed, wakers signalled). -/
def cancel (m : WMap K V W) (key : K) : WMap K V W × Bool × List W :=
  match m key with
  | some (.Waiting wakers) => (m.upd key none, true, wakers.wake)
  | _ => (m, false, [])

/-- The per-entry action of `WaitMap::cancel_all`'s `retain` closure: a
`Waiting` slot has its waker set drained-and-woken and is removed; any other
slot is retained.  Returns (new slot, wakers signalled for this key). -/
def cancel_allEntry (e : Option (WaitEntry V W)) :
    Option (WaitEntry V W) × List W :=
  match e with
  | some (.Waiting wakers) => (none, wakers.wake)
  | e => (e, [])

/-- `WaitMap::cancel_all()`: retain only non-`Waiting` slots. -/
def cancel_all (m : WMap K V W) : WMap K V W :=
  fun k => (cancel_allEntry (m k)).1

/-- The wakers signalled for a given key during `cancel_all`. -/
def cancel_allWoken (m : WMap K V W) (k : K) : List W :=
  (cancel_allEntry (m k)).2

end WaitMap

/-- The tri-state result of `Future::poll`, with `Ready` carrying the output. -/
inductive PollRes (A : Type) where
  | Ready (a : A)
  | Pending
deriving DecidableEq, Repr

/-- The state stored in a `Wait`, `WaitMut` or `Remove` future: the queried
key, and the index into the slot's `WakerSet` (`USIZE_MAX` = not registered). -/
structure WaitFut (K : Type) where
  key : K
  idx : Nat
deriving DecidableEq, Repr

namespace WaitMap

variable {K V W : Type} [DecidableEq K]

/-- The synchronous part of `WaitMap::wait` / `WaitMap::wait_mut`:
`self.map.entry(key).or_insert(Waiting(WakerSet::new()))`, then build the
future with `idx = usize::MAX`. -/
def waitStart (m : WMap K V W) (key : K) : WMap K V W × WaitFut K :=
  (match m key with
   | none => m.upd key (some (.Waiting .new))
   | some _ => m,
   ⟨key, USIZE_MAX⟩)

end WaitMap

namespace Wait

variable {K V W : Type} [DecidableEq K]

/-- `<Wait as Future>::poll` (and, identically up to the guard it keeps,
`<WaitMut as Future>::poll`): case split on the slot under the future's key.
Returns (new map, new future state, poll result). -/
def poll (m : WMap K V W) (fut : WaitFut K) (waker : W) :
    WMap K V W × WaitFut K × PollRes (Option (WRef K V W)) :=
  match m fut.key with
  | some (.Waiting wakers) =>
      (m.upd fut.key (some (.Waiting (wakers.replace waker fut.idx).1)),
       ⟨fut.key, (wakers.replace waker fut.idx).2⟩, .Pending)
  | some (.Filled v) =>
      (m, ⟨fut.key, USIZE_MAX⟩, .Ready (some ⟨fut.key, .Filled v⟩))
  | none => (m, fut, .Ready none)

/-- `<Wait as Drop>::drop` (and, identically, `<WaitMut as Drop>::drop`):
when the stored index is not the sentinel and the slot is still `Waiting`,
tombstone position `idx` of its waker set.  `none` models the panic of the
out-of-bounds `wakers[idx] = None` write. -/
def drop (m : WMap K V W) (fut : WaitFut K) : Option (WMap K V W) :=
  if fut.idx = USIZE_MAX then some m
  else
    match m fut.key with
    | some (.Waiting wakers) =>
        (wakers.remove fut.idx).map fun wakers' =>
          m.upd fut.key (some (.Waiting wakers'))
    | _ => some m

end Wait

namespace Remove

variable {K V W : Type} [DecidableEq K]

/-- `<Remove as Future>::poll`: register-or-replace and stay `Pending` on a
`Waiting` slot; resolve `Ready(None)` on an absent slot; on a `Filled` slot,
remove the entry from the map and resolve `Ready(Some((key, value)))`.
Returns (new map, new future state, poll result, wakers signalled). -/
def poll (m : WMap K V W) (fut : WaitFut K) (waker : W) :
    WMap K V W × WaitFut K × PollRes (Option (K × V)) × List W :=
  match m fut.key with
  | some (.Waiting wakers) =>
      (m.upd fut.key (some (.Waiting (wakers.replace waker fut.idx).1)),
       ⟨fut.key, (wakers.replace waker fut.idx).2⟩, .Pending, [])
  | some (.Filled v) =>
      (m.upd fut.key none, ⟨fut.key, USIZE_MAX⟩, .Ready (some (fut.key, v)), [])
  | none => (m, fut, .Ready none, [])

end Remove

/-- The view a `waitmap::Entry` has of one key's slot: `Occupied` when the
slot is `Filled`, `ReallyVacant` when there is no slot, and `WaitingVacant`
(surfaced to users as `Vacant`) when the slot is `Waiting`. -/
inductive EntryView (K V W : Type) where
  | Occupied (key : K) (value : V)
  | ReallyVacant (key : K)
  | WaitingVacant (key : K) (wakers : WakerSet W)
deriving DecidableEq, Repr

namespace EntryView

variable {K V W E : Type} [DecidableEq K]

/-- `VacantEntry::insert` (also used by the `or_insert*` family): a really
vacant slot gets `Filled value` with nobody to wake; a waiting-vacant slot is
replaced in place by `Filled value` and its waker set is drained-and-woken. -/
def vacantInsert (m : WMap K V W) (key : K) (waiting : Option (WakerSet W))
    (value : V) : WMap K V W × List W :=
  match waiting with
  | none => (m.upd key (some (.Filled value)), [])
  | some wakers => (m.upd key (some (.Filled value)), wakers.wake)

/-- `Entry::or_try_insert_with(f)`: on `Occupied` convert to a reference
without calling `f`; on either vacant variant evaluate `f` first (`f()?`), so
an `Err` propagates before any insertion happens.  The closure is modelled by
its result `fres`.  Returns (new map, wakers signalled, outcome). -/
def or_try_insert_with (m : WMap K V W) (e : EntryView K V W)
    (fres : Except E V) : WMap K V W × List W × Except E V :=
  match e with
  | .Occupied _ v => (m, [], .ok v)
  | .ReallyVacant key =>
      match fres with
      | .ok v => ((vacantInsert m key none v).1, (vacantInsert m key none v).2, .ok v)
      | .error err => (m, [], .error err)
  | .WaitingVacant key wakers =>
      match fres with
      | .ok v =>
          ((vacantInsert m key (some wakers) v).1,
           (vacantInsert m key (some wakers) v).2, .ok v)
      | .error err => (m, [], .error err)

end EntryView

/-! ## Theorems about the embedded operations -/

/-- Claim C1 fails on the code: `get` (and `get_mut`) return `Some` whenever
the key is present, with no check that the slot is `Filled` — here the slot
for key 0 is `Waiting`, yet both return a guard on it (whose `value()` would
hit the `panic!()` branch, modelled as `none`). -/
theorem get_observes_waiting_slot :
    (WMap.empty.upd 0 (some (.Waiting .new)) : WMap Nat Nat Nat) 0
      = some (.Waiting .new) ∧
    WaitMap.get (WMap.empty.upd 0 (some (.Waiting .new)) : WMap Nat Nat Nat) 0
      = some ⟨0, .Waiting .new⟩ ∧
    WaitMap.get_mut (WMap.empty.upd 0 (some (.Waiting .new)) : WMap Nat Nat Nat) 0
      = some ⟨0, .Waiting .new⟩ := ⟨rfl, rfl, rfl⟩

/-- Claim C2 fails on the code: the public sequence `wait(0)` (which creates
a `Waiting` placeholder slot) followed by `get(0)` hands the caller a `Ref`
wrapping a `Waiting` slot, so `value()` reaches the `panic!()` branch
(modelled as `none`). -/
theorem public_ops_reach_ref_panic :
    ∃ r : WRef Nat Nat Nat,
      WaitMap.get (WaitMap.waitStart (WMap.empty : WMap Nat Nat Nat) 0).1 0
        = some r ∧
      r.value = none :=
  ⟨⟨0, .Waiting .new⟩, rfl, rfl⟩

/-- Claim C8: `WakerSet::replace(waker, &mut idx)` appends `some waker`,
grows the set by exactly one and writes the new position back whenever `idx`
is outside `[0, len)` (in particular at the sentinel, whenever `len` does not
exceed it); otherwise it overwrites position `idx` in place, leaving both the
length and `idx` unchanged. -/
theorem wakerSet_replace_spec {W : Type} (s : WakerSet W) (waker : W) (idx : Nat) :
    (idx ≥ s.len →
      s.replace waker idx = (⟨s.wakers ++ [some waker]⟩, s.len) ∧
      (s.replace waker idx).1.len = s.len + 1 ∧
      (s.replace waker idx).2 = s.len) ∧
    (s.len ≤ USIZE_MAX →
      s.replace waker USIZE_MAX = (⟨s.wakers ++ [some waker]⟩, s.len)) ∧
    (idx < s.len →
      s.replace waker idx = (⟨s.wakers.set idx (some waker)⟩, idx) ∧
      (s.replace waker idx).1.len = s.len ∧
      (s.replace waker idx).2 = idx) := by
  refine ⟨fun h => ?_, fun h => ?_, fun h => ?_⟩
  · simp only [WakerSet.replace, if_pos h]
    simp [WakerSet.len]
  · have h' : USIZE_MAX ≥ s.len := h
    simp only [WakerSet.replace, if_pos h']
  · simp only [WakerSet.replace, if_neg (Nat.not_le.mpr h)]
    simp [WakerSet.len]

/-- Concrete instance of `wakerSet_replace_spec`: registering at the sentinel
appends; re-registering at the returned index overwrites in place. -/
theorem wakerSet_replace_spec_witness :
    (WakerSet.new : WakerSet Nat).replace 7 USIZE_MAX = (⟨[some 7]⟩, 0) ∧
    (⟨[some 7]⟩ : WakerSet Nat).replace 9 0 = (⟨[some 9]⟩, 0) := by
  constructor
  · exact ((wakerSet_replace_spec WakerSet.new 7 USIZE_MAX).1 (by decide)).1
  · exact ((wakerSet_replace_spec ⟨[some 7]⟩ 9 0).2.2 (by decide)).1

/-- Claim C3: `insert(k, v)` leaves the slot `Filled v` and every other slot
untouched; it returns `None` when the slot was absent or `Waiting` and
`Some old` when it was `Filled old`; only the `Waiting` case drains and wakes
the slot's waker set; and a second insert on the same key returns `Some v`. -/
theorem insert_spec {K V W : Type} [DecidableEq K]
    (m : WMap K V W) (k : K) (v : V) :
    (WaitMap.insert m k v).1 k = some (.Filled v) ∧
    (∀ k', k' ≠ k → (WaitMap.insert m k v).1 k' = m k') ∧
    (m k = none → (WaitMap.insert m k v).2 = (none, [])) ∧
    (∀ wakers, m k = some (.Waiting wakers) →
      (WaitMap.insert m k v).2 = (none, wakers.wake)) ∧
    (∀ old, m k = some (.Filled old) →
      (WaitMap.insert m k v).2 = (some old, [])) ∧
    (∀ v', (WaitMap.insert (WaitMap.insert m k v).1 k v').2.1 = some v) := by
  refine ⟨?_, ?_, ?_, ?_, ?_, ?_⟩
  · rcases h : m k with _ | e
    · simp [WaitMap.insert, h]
    · cases e <;> simp [WaitMap.insert, h]
  · intro k' hk
    rcases h : m k with _ | e
    · simp [WaitMap.insert, h, WMap.upd_other _ _ _ _ hk]
    · cases e <;> simp [WaitMap.insert, h, WMap.upd_other _ _ _ _ hk]
  · intro h; simp [WaitMap.insert, h]
  · intro wakers h; simp [WaitMap.insert, h]
  · intro old h; simp [WaitMap.insert, h]
  · intro v'
    have h1 : (WaitMap.insert m k v).1 k = some (.Filled v) := by
      rcases h : m k with _ | e
      · simp [WaitMap.insert, h]
      · cases e <;> simp [WaitMap.insert, h]
    generalize hg : (WaitMap.insert m k v).1 = m1 at h1 ⊢
    simp [WaitMap.insert, h1]

/-- Concrete instance of `insert_spec`: inserting into the empty map fills
the slot, wakes nobody, leaves other keys absent, and a repeated insert
returns the first value. -/
theorem insert_spec_witness :
    (WaitMap.insert (WMap.empty : WMap Nat Nat Nat) 0 1).1 0
      = some (.Filled 1) ∧
    (WaitMap.insert (WMap.empty : WMap Nat Nat Nat) 0 1).1 5 = WMap.empty 5 ∧
    (WaitMap.insert (WMap.empty : WMap Nat Nat Nat) 0 1).2 = (none, []) ∧
    (WaitMap.insert (WaitMap.insert (WMap.empty : WMap Nat Nat Nat) 0 1).1
      0 2).2.1 = some 1 := by
  obtain ⟨h1, h2, h3, _, _, h6⟩ :=
    insert_spec (WMap.empty : WMap Nat Nat Nat) 0 1
  exact ⟨h1, h2 5 (by decide), h3 rfl, h6 2⟩

/-- Claim C5: `cancel(k)` returns `true` iff the slot was `Waiting`, in which
case the slot is removed (other keys untouched) and its waker set is
drained-and-woken; on a `Filled` or absent slot it returns `false` and the
whole map is unchanged with nobody woken. -/
theorem cancel_spec {K V W : Type} [DecidableEq K] (m : WMap K V W) (k : K) :
    ((WaitMap.cancel m k).2.1 = true ↔
      ∃ wakers, m k = some (.Waiting wakers)) ∧
    (∀ wakers, m k = some (.Waiting wakers) →
      WaitMap.cancel m k = (m.upd k none, true, wakers.wake)) ∧
    (∀ v, m k = some (.Filled v) → WaitMap.cancel m k = (m, false, [])) ∧
    (m k = none → WaitMap.cancel m k = (m, false, [])) := by
  refine ⟨⟨?_, ?_⟩, ?_, ?_, ?_⟩
  · intro h
    rcases hm : m k with _ | e
    · simp [WaitMap.cancel, hm] at h
    · cases e with
      | Waiting wakers => exact ⟨wakers, rfl⟩
      | Filled v => simp [WaitMap.cancel, hm] at h
  · rintro ⟨wakers, hm⟩
    simp [WaitMap.cancel, hm]
  · intro wakers hm
    simp [WaitMap.cancel, hm]
  · intro v hm
    simp [WaitMap.cancel, hm]
  · intro hm
    simp [WaitMap.cancel, hm]

/-- Concrete instance of `cancel_spec`: cancelling a `Waiting` slot holding
one waker removes it, signals the waker and returns `true`; cancelling a
`Filled` slot returns `false` and changes nothing. -/
theorem cancel_spec_witness :
    WaitMap.cancel (WMap.empty.upd 0 (some (.Waiting ⟨[some 7]⟩))
        : WMap Nat Nat Nat) 0
      = ((WMap.empty.upd 0 (some (.Waiting ⟨[some 7]⟩))).upd 0 none,
         true, [7]) ∧
    WaitMap.cancel (WMap.empty.upd 0 (some (.Filled 3)) : WMap Nat Nat Nat) 0
      = (WMap.empty.upd 0 (some (.Filled 3)), false, []) := by
  constructor
  · exact (cancel_spec (WMap.empty.upd 0 (some (.Waiting ⟨[some 7]⟩))
        : WMap Nat Nat Nat) 0).2.1 ⟨[some 7]⟩ rfl
  · exact (cancel_spec (WMap.empty.upd 0 (some (.Filled 3))
        : WMap Nat Nat Nat) 0).2.2.1 3 rfl

/-- Claim C6: after `cancel_all()`, `get(k)` is `Some` iff the slot for `k`
was `Filled` immediately before; every `Filled` slot survives with its value
unchanged, and every `Waiting` slot is removed with its waker set drained,
each stored waker being signalled. -/
theorem cancel_all_spec {K V W : Type} [DecidableEq K]
    (m : WMap K V W) (k : K) :
    ((WaitMap.get (WaitMap.cancel_all m) k).isSome = true ↔
      ∃ v, m k = some (.Filled v)) ∧
    (∀ v, m k = some (.Filled v) →
      WaitMap.cancel_all m k = some (.Filled v) ∧
      WaitMap.cancel_allWoken m k = []) ∧
    (∀ wakers, m k = some (.Waiting wakers) →
      WaitMap.cancel_all m k = none ∧
      WaitMap.cancel_allWoken m k = wakers.wake ∧
      ∀ w, some w ∈ wakers.wakers → w ∈ WaitMap.cancel_allWoken m k) ∧
    (m k = none → WaitMap.cancel_all m k = none) := by
  refine ⟨⟨?_, ?_⟩, ?_, ?_, ?_⟩
  · intro h
    rcases hm : m k with _ | e
    · simp [WaitMap.get, WaitMap.cancel_all, WaitMap.cancel_allEntry, hm] at h
    · cases e with
      | Waiting wakers =>
          simp [WaitMap.get, WaitMap.cancel_all, WaitMap.cancel_allEntry,
            hm] at h
      | Filled v => exact ⟨v, rfl⟩
  · rintro ⟨v, hm⟩
    simp [WaitMap.get, WaitMap.cancel_all, WaitMap.cancel_allEntry, hm]
  · intro v hm
    simp [WaitMap.cancel_all, WaitMap.cancel_allWoken,
      WaitMap.cancel_allEntry, hm]
  · intro wakers hm
    refine ⟨?_, ?_, ?_⟩
    · simp [WaitMap.cancel_all, WaitMap.cancel_allEntry, hm]
    · simp [WaitMap.cancel_allWoken, WaitMap.cancel_allEntry, hm]
    · intro w hw
      simpa [WaitMap.cancel_allWoken, WaitMap.cancel_allEntry, hm,
        WakerSet.wake] using hw
  · intro hm
    simp [WaitMap.cancel_all, WaitMap.cancel_allEntry, hm]

/-- Concrete instance of `cancel_all_spec`: on a map with a `Filled` slot at
0 and a `Waiting` slot (one stored waker) at 1, `cancel_all` keeps slot 0
intact, removes slot 1 and signals waker 7. -/
theorem cancel_all_spec_witness :
    (WaitMap.get (WaitMap.cancel_all
        ((WMap.empty.upd 0 (some (.Filled 3))).upd 1
          (some (.Waiting ⟨[some 7]⟩)) : WMap Nat Nat Nat)) 0).isSome
      = true ∧
    WaitMap.cancel_all
        ((WMap.empty.upd 0 (some (.Filled 3))).upd 1
          (some (.Waiting ⟨[some 7]⟩)) : WMap Nat Nat Nat) 1 = none ∧
    WaitMap.cancel_allWoken
        ((WMap.empty.upd 0 (some (.Filled 3))).upd 1
          (some (.Waiting ⟨[some 7]⟩)) : WMap Nat Nat Nat) 1 = [7] := by
  refine ⟨?_, ?_, ?_⟩
  · exact (cancel_all_spec ((WMap.empty.upd 0 (some (.Filled 3))).upd 1
      (some (.Waiting ⟨[some 7]⟩)) : WMap Nat Nat Nat) 0).1.2 ⟨3, rfl⟩
  · exact ((cancel_all_spec ((WMap.empty.upd 0 (some (.Filled 3))).upd 1
      (some (.Waiting ⟨[some 7]⟩)) : WMap Nat Nat Nat) 1).2.2.1
        ⟨[some 7]⟩ rfl).1
  · exact ((cancel_all_spec ((WMap.empty.upd 0 (some (.Filled 3))).upd 1
      (some (.Waiting ⟨[some 7]⟩)) : WMap Nat Nat Nat) 1).2.2.1
        ⟨[some 7]⟩ rfl).2.1

/-- Claim C4: polling a `Wait` (or `WaitMut`) future is a three-way case
split on the slot under its key — absent resolves `Ready none`; `Filled v`
resets the stored index to the sentinel and resolves `Ready (some guard)` on
that slot without touching the map; `Waiting` registers the context's waker
(writing the index back into the future) and returns `Pending`. -/
theorem wait_poll_spec {K V W : Type} [DecidableEq K]
    (m : WMap K V W) (fut : WaitFut K) (waker : W) :
    (m fut.key = none → Wait.poll m fut waker = (m, fut, .Ready none)) ∧
    (∀ v, m fut.key = some (.Filled v) →
      Wait.poll m fut waker =
        (m, ⟨fut.key, USIZE_MAX⟩, .Ready (some ⟨fut.key, .Filled v⟩))) ∧
    (∀ wakers, m fut.key = some (.Waiting wakers) →
      Wait.poll m fut waker =
        (m.upd fut.key (some (.Waiting (wakers.replace waker fut.idx).1)),
         ⟨fut.key, (wakers.replace waker fut.idx).2⟩, .Pending)) := by
  refine ⟨fun h => ?_, fun v h => ?_, fun wakers h => ?_⟩ <;>
    simp [Wait.poll, h]

/-- Concrete instance of `wait_poll_spec`: polling on an absent key resolves
`Ready none`; polling on a `Filled` slot resolves to a guard with the index
reset; polling on a `Waiting` slot registers waker 7 at position 0 and stays
`Pending`. -/
theorem wait_poll_spec_witness :
    Wait.poll (WMap.empty : WMap Nat Nat Nat) ⟨0, USIZE_MAX⟩ 7
      = (WMap.empty, ⟨0, USIZE_MAX⟩, .Ready none) ∧
    Wait.poll (WMap.empty.upd 0 (some (.Filled 3)) : WMap Nat Nat Nat)
        ⟨0, USIZE_MAX⟩ 7
      = (WMap.empty.upd 0 (some (.Filled 3)), ⟨0, USIZE_MAX⟩,
         .Ready (some ⟨0, .Filled 3⟩)) ∧
    Wait.poll (WMap.empty.upd 0 (some (.Waiting .new)) : WMap Nat Nat Nat)
        ⟨0, USIZE_MAX⟩ 7
      = ((WMap.empty.upd 0 (some (.Waiting .new))).upd 0
           (some (.Waiting ⟨[some 7]⟩)), ⟨0, 0⟩, .Pending) := by
  refine ⟨?_, ?_, ?_⟩
  · exact (wait_poll_spec (WMap.empty : WMap Nat Nat Nat)
      ⟨0, USIZE_MAX⟩ 7).1 rfl
  · exact (wait_poll_spec (WMap.empty.upd 0 (some (.Filled 3))
      : WMap Nat Nat Nat) ⟨0, USIZE_MAX⟩ 7).2.1 3 rfl
  · have h := (wait_poll_spec (WMap.empty.upd 0 (some (.Waiting .new))
      : WMap Nat Nat Nat) ⟨0, USIZE_MAX⟩ 7).2.2 WakerSet.new rfl
    simpa [WakerSet.replace, WakerSet.new, WakerSet.len, USIZE_MAX] using h

/-- Claim C7: dropping a `Wait` (or `WaitMut`) future with a registered,
in-bounds index tombstones exactly its own position in the still-`Waiting`
slot's waker set — every other position and every other key is untouched —
and when the index is the sentinel or the slot is `Filled` or absent the
drop changes nothing at all. -/
theorem wait_drop_spec {K V W : Type} [DecidableEq K]
    (m : WMap K V W) (fut : WaitFut K) :
    (fut.idx = USIZE_MAX → Wait.drop m fut = some m) ∧
    (fut.idx ≠ USIZE_MAX → m fut.key = none → Wait.drop m fut = some m) ∧
    (∀ v, fut.idx ≠ USIZE_MAX → m fut.key = some (.Filled v) →
      Wait.drop m fut = some m) ∧
    (∀ wakers, fut.idx ≠ USIZE_MAX → m fut.key = some (.Waiting wakers) →
      fut.idx < wakers.len →
      Wait.drop m fut =
        some (m.upd fut.key
          (some (.Waiting ⟨wakers.wakers.set fut.idx none⟩))) ∧
      (∀ j, j ≠ fut.idx →
        (wakers.wakers.set fut.idx none)[j]? = wakers.wakers[j]?) ∧
      (∀ k', k' ≠ fut.key →
        (m.upd fut.key (some (.Waiting ⟨wakers.wakers.set fut.idx none⟩))) k'
          = m k')) := by
  refine ⟨fun h => ?_, fun h hm => ?_, fun v h hm => ?_,
    fun wakers h hm hlt => ⟨?_, fun j hj => ?_, fun k' hk => ?_⟩⟩
  · simp [Wait.drop, h]
  · simp [Wait.drop, h, hm]
  · simp [Wait.drop, h, hm]
  · simp [Wait.drop, h, hm, WakerSet.remove, WakerSet.len] at hlt ⊢
    simp [hlt]
  · exact List.getElem?_set_ne (Ne.symm hj)
  · exact WMap.upd_other _ _ _ _ hk

/-- Concrete instance of `wait_drop_spec`: dropping an unregistered future
changes nothing; dropping a future registered at position 0 of a two-waker
`Waiting` slot tombstones only that position and leaves other keys alone. -/
theorem wait_drop_spec_witness :
    Wait.drop (WMap.empty.upd 0 (some (.Waiting ⟨[some 7, some 9]⟩))
        : WMap Nat Nat Nat) ⟨0, USIZE_MAX⟩
      = some (WMap.empty.upd 0 (some (.Waiting ⟨[some 7, some 9]⟩))) ∧
    Wait.drop (WMap.empty.upd 0 (some (.Waiting ⟨[some 7, some 9]⟩))
        : WMap Nat Nat Nat) ⟨0, 0⟩
      = some ((WMap.empty.upd 0 (some (.Waiting ⟨[some 7, some 9]⟩))).upd 0
          (some (.Waiting ⟨[none, some 9]⟩))) := by
  constructor
  · exact (wait_drop_spec (WMap.empty.upd 0
      (some (.Waiting ⟨[some 7, some 9]⟩)) : WMap Nat Nat Nat)
        ⟨0, USIZE_MAX⟩).1 rfl
  · have h := ((wait_drop_spec (WMap.empty.upd 0
      (some (.Waiting ⟨[some 7, some 9]⟩)) : WMap Nat Nat Nat) ⟨0, 0⟩).2.2.2
        ⟨[some 7, some 9]⟩ (by decide) rfl (by decide)).1
    simpa using h

/-- Claim C9: when the closure handed to `Entry::or_try_insert_with` fails
on a vacant entry — really vacant or vacant-with-pending-waiters — the error
propagates (`f()?` runs before any insertion), the map is unchanged, and no
waker is signalled. -/
theorem or_try_insert_with_err_spec {K V W E : Type} [DecidableEq K]
    (m : WMap K V W) (e : EntryView K V W) (err : E) :
    (∀ key, e = .ReallyVacant key →
      EntryView.or_try_insert_with m e (.error err) = (m, [], .error err)) ∧
    (∀ key wakers, e = .WaitingVacant key wakers →
      EntryView.or_try_insert_with m e (.error err)
        = (m, [], .error err)) := by
  constructor
  · rintro key rfl
    simp [EntryView.or_try_insert_with]
  · rintro key wakers rfl
    simp [EntryView.or_try_insert_with]

/-- Concrete instance of `or_try_insert_with_err_spec`: a failing closure on
a waiting-vacant entry over a one-waiter slot yields the error, the original
map and an empty woken list. -/
theorem or_try_insert_with_err_spec_witness :
    EntryView.or_try_insert_with
        (WMap.empty.upd 0 (some (.Waiting ⟨[some 7]⟩)) : WMap Nat Nat Nat)
        (.WaitingVacant 0 ⟨[some 7]⟩) (Except.error "boom")
      = (WMap.empty.upd 0 (some (.Waiting ⟨[some 7]⟩)), [],
         Except.error "boom") :=
  (or_try_insert_with_err_spec
    (WMap.empty.upd 0 (some (.Waiting ⟨[some 7]⟩)) : WMap Nat Nat Nat)
    (.WaitingVacant 0 ⟨[some 7]⟩) "boom").2 0 ⟨[some 7]⟩ rfl

/-- Claim C10: polling a `Remove` future on a `Filled` slot removes the
entry (the key is absent afterwards) and resolves `Ready (some (key, value))`
with no waker signalled; on an absent slot it resolves `Ready none`; on a
`Waiting` slot it registers the waker and stays `Pending`. -/
theorem remove_poll_spec {K V W : Type} [DecidableEq K]
    (m : WMap K V W) (fut : WaitFut K) (waker : W) :
    (m fut.key = none →
      Remove.poll m fut waker = (m, fut, .Ready none, [])) ∧
    (∀ v, m fut.key = some (.Filled v) →
      Remove.poll m fut waker =
        (m.upd fut.key none, ⟨fut.key, USIZE_MAX⟩,
         .Ready (some (fut.key, v)), []) ∧
      (Remove.poll m fut waker).1 fut.key = none) ∧
    (∀ wakers, m fut.key = some (.Waiting wakers) →
      Remove.poll m fut waker =
        (m.upd fut.key (some (.Waiting (wakers.replace waker fut.idx).1)),
         ⟨fut.key, (wakers.replace waker fut.idx).2⟩, .Pending, [])) := by
  refine ⟨fun h => ?_, fun v h => ⟨?_, ?_⟩, fun wakers h => ?_⟩ <;>
    simp [Remove.poll, h]

/-- Concrete instance of `remove_poll_spec`: polling `remove_wait` on a slot
`Filled 3` removes it and resolves to the pair, and afterwards the key is
absent. -/
theorem remove_poll_spec_witness :
    Remove.poll (WMap.empty.upd 0 (some (.Filled 3)) : WMap Nat Nat Nat)
        ⟨0, USIZE_MAX⟩ 7
      = ((WMap.empty.upd 0 (some (.Filled 3))).upd 0 none,
         ⟨0, USIZE_MAX⟩, .Ready (some (0, 3)), []) ∧
    (Remove.poll (WMap.empty.upd 0 (some (.Filled 3)) : WMap Nat Nat Nat)
        ⟨0, USIZE_MAX⟩ 7).1 0 = none :=
  (remove_poll_spec (WMap.empty.upd 0 (some (.Filled 3)) : WMap Nat Nat Nat)
    ⟨0, USIZE_MAX⟩ 7).2.1 3 rfl
